import Mathlib

/-!
Shallow embedding of the music-gem acid sequencer core.

The embedding covers:
* the data model (`src/types.ts`): `Step`, `SynthParams`;
* the monophonic voice engine (`AudioEngine` in `src/unnamed/part_001`,
  i.e. `services/audioEngine.ts`): `scheduleStep` is modelled as a pure
  function from the engine state and the trigger inputs to the new engine
  state and the ordered list of Web Audio automation commands it emits;
* the scheduler cursor and per-iteration trigger decision of `src/App.tsx`
  (`nextNote`, `scheduleNote`, `scheduler`);
* the MIDI emitter (`src/services/midiService.ts`) and the wall-clock
  timeout queue that `scheduleNote` / `stopSequencer` manipulate.

Machine floats are modelled as real numbers (audio domain) and as exact
rationals (wall-clock timeout domain, where every constant of the source is
a small decimal and the claims are order/shape claims, not rounding claims).
-/

namespace MusicGem

/-- Oscillator waveform (`src/types.ts`, field `SynthParams.waveform`). -/
inductive Waveform where
  | sawtooth
  | square
deriving DecidableEq

/-- One sequencer slot (`src/types.ts`, interface `Step`). -/
structure Step where
  active : Bool
  note : ℤ
  octave : ℤ
  slide : Bool
  accent : Bool
deriving DecidableEq

instance : Inhabited Step := ⟨⟨false, 0, 0, false, false⟩⟩

/-- Synth knob values (`src/types.ts`, interface `SynthParams`). -/
structure SynthParams where
  cutoff : ℝ
  resonance : ℝ
  envMod : ℝ
  decay : ℝ
  accentLevel : ℝ
  tempo : ℝ
  waveform : Waveform
  volume : ℝ

/-- The four automatable audio parameters of the engine's signal chain:
oscillator frequency, filter frequency, filter Q, amplitude-gate gain. -/
inductive AudioParam where
  | oscFrequency
  | filterFrequency
  | filterQ
  | ampGainLevel
deriving DecidableEq

/-- One Web Audio command emitted by the engine, in emission order.
`cancelScheduledValues`, `setValueAtTime`, `linearRampToValueAtTime`,
`exponentialRampToValueAtTime` and `setTargetAtTime` are the AudioParam
methods used by `audioEngine.ts`; `oscStart`/`oscStopNow` model
`osc.start(time)` / `osc.stop()`; `setOscType` models `osc.type = ...`;
`setValueNow` models a direct `.value =` assignment. -/
inductive AudioCmd where
  | cancelScheduledValues (p : AudioParam) (t : ℝ)
  | setValueAtTime (p : AudioParam) (v : ℝ) (t : ℝ)
  | linearRampToValueAtTime (p : AudioParam) (v : ℝ) (t : ℝ)
  | exponentialRampToValueAtTime (p : AudioParam) (v : ℝ) (t : ℝ)
  | setTargetAtTime (p : AudioParam) (v : ℝ) (t : ℝ) (timeConstant : ℝ)
  | oscStart (t : ℝ)
  | oscStopNow
  | setOscType (w : Waveform)
  | setValueNow (p : AudioParam) (v : ℝ)

/-- Does this command schedule a new automation point on parameter `p`? -/
def AudioCmd.schedulesOn : AudioCmd → AudioParam → Bool
  | .setValueAtTime q _ _, p => q == p
  | .linearRampToValueAtTime q _ _, p => q == p
  | .exponentialRampToValueAtTime q _ _, p => q == p
  | .setTargetAtTime q _ _ _, p => q == p
  | _, _ => false

/-- Is this command a `cancelScheduledValues` on parameter `p`? -/
def AudioCmd.isCancelOn : AudioCmd → AudioParam → Bool
  | .cancelScheduledValues q _, p => q == p
  | _, _ => false

/-- `cancelFirstOn p cmds` holds when, walking `cmds` in emission order, a
`cancelScheduledValues` on `p` is met before any new automation point on
`p` (vacuously `true` when `p` is never touched). This is the shape the
spec demands of every automated parameter a trigger schedules on. -/
def cancelFirstOn (p : AudioParam) : List AudioCmd → Bool
  | [] => true
  | c :: rest =>
    if c.isCancelOn p then true
    else if c.schedulesOn p then false
    else cancelFirstOn p rest

/-- Engine-internal voice state: `osc` is `null` (no voice) or the
oscillator node, which we identify by the rendering-clock time at which
`osc.start(time)` was called (`audioEngine.ts`, field `osc`). -/
structure AudioEngineState where
  oscStartTime : Option ℝ

/-- Number of oscillator/filter/gate voice instances currently alive. -/
def AudioEngineState.voiceCount (st : AudioEngineState) : ℕ :=
  match st.oscStartTime with
  | some _ => 1
  | none => 0

/-- Equal-temperament pitch of a MIDI note number:
`440 * Math.pow(2, (midi - 69) / 12)` (`audioEngine.ts`, line 64). -/
noncomputable def noteFrequency (midi : ℤ) : ℝ :=
  440 * (2 : ℝ) ^ (((midi : ℝ) - 69) / 12)

/-- `AudioEngine.scheduleStep` (`audioEngine.ts`, lines 45-132), as a pure
function from the engine state and the trigger inputs to the new engine
state and the list of emitted Web Audio commands, in source order:

* inactive step: `ampGain.gain.setTargetAtTime(0, time, 0.01)`, return;
* lazily create the oscillator (`osc.start(time)`), set `osc.type`;
* `baseMidi = 36 + note + octave*12`; set frequency at `time`;
* if `step.slide && nextStep && nextStep.active`: linear ramp of the
  oscillator frequency to the next step's frequency at `time+stepDuration`;
* accent handling and filter-Q `setValueAtTime`;
* amp gain: `cancelScheduledValues(time)` then `setValueAtTime(activeVol)`;
* filter frequency: `cancelScheduledValues(time)`, `setValueAtTime`,
  attack ramp to `peakFilter` at `time+0.01`, exponential decay back;
* if not sliding: gate close at `time + 0.8*stepDuration` over 20 ms. -/
noncomputable def scheduleStep (st : AudioEngineState) (step : Step)
    (nextStep : Option Step) (time : ℝ) (params : SynthParams)
    (stepDuration : ℝ) : AudioEngineState × List AudioCmd :=
  if step.active = false then
    (st, [AudioCmd.setTargetAtTime AudioParam.ampGainLevel 0 time 0.01])
  else
    -- 1. Setup Oscillator: created only when `osc` is null, then reused
    let st' : AudioEngineState := ⟨some (st.oscStartTime.getD time)⟩
    let createCmds : List AudioCmd :=
      match st.oscStartTime with
      | none => [AudioCmd.oscStart time]
      | some _ => []
    let baseMidi : ℤ := 36 + step.note + step.octave * 12
    let frequency : ℝ := noteFrequency baseMidi
    -- 2. Frequency Logic (Slide)
    let slideCmds : List AudioCmd :=
      match nextStep with
      | some ns =>
        if step.slide && ns.active then
          [AudioCmd.linearRampToValueAtTime AudioParam.oscFrequency
            (noteFrequency (36 + ns.note + ns.octave * 12)) (time + stepDuration)]
        else []
      | none => []
    -- 3. Parameters
    let maxFilterFreq : ℝ := 20000
    let baseCutoff : ℝ := params.cutoff / 100 * 8000 + 50
    let resValue : ℝ := params.resonance / 100 * 20
    let accentIntensity : ℝ := params.accentLevel / 100
    let activeEnvMod : ℝ :=
      if step.accent then min 1 (params.envMod / 100 + 0.5 * accentIntensity)
      else params.envMod / 100
    let activeDecay : ℝ :=
      if step.accent then max 0.1 (params.decay / 100 * 0.5)
      else params.decay / 100
    let activeVol : ℝ :=
      if step.accent then min 1 (params.volume / 100 + 0.3 * accentIntensity)
      else params.volume / 100
    let qValue : ℝ :=
      if step.accent then resValue + 10 * accentIntensity else resValue
    -- 4. Envelopes
    let peakFilter : ℝ := min maxFilterFreq (baseCutoff + activeEnvMod * 10000)
    let decayTime : ℝ := 0.1 + activeDecay * 2.0
    -- 5. Note Off (Gate) logic: skipped when sliding (legato)
    let gateCmds : List AudioCmd :=
      if step.slide then []
      else
        let gateLen : ℝ := stepDuration * 0.8
        [AudioCmd.setValueAtTime AudioParam.ampGainLevel activeVol (time + gateLen),
         AudioCmd.linearRampToValueAtTime AudioParam.ampGainLevel 0 (time + gateLen + 0.02)]
    (st',
      createCmds ++
      [AudioCmd.setOscType params.waveform,
       AudioCmd.setValueAtTime AudioParam.oscFrequency frequency time] ++
      slideCmds ++
      [AudioCmd.setValueAtTime AudioParam.filterQ qValue time,
       AudioCmd.cancelScheduledValues AudioParam.ampGainLevel time,
       AudioCmd.setValueAtTime AudioParam.ampGainLevel activeVol time,
       AudioCmd.cancelScheduledValues AudioParam.filterFrequency time,
       AudioCmd.setValueAtTime AudioParam.filterFrequency baseCutoff time,
       AudioCmd.linearRampToValueAtTime AudioParam.filterFrequency peakFilter (time + 0.01),
       AudioCmd.exponentialRampToValueAtTime AudioParam.filterFrequency baseCutoff (time + decayTime)] ++
      gateCmds)

/-- `AudioEngine.stop` (`audioEngine.ts`, lines 134-142): stop and release
the oscillator when present, cancel amp-gain automation at the current
rendering-clock time `now` and force the gain to `0`. -/
noncomputable def engineStop (st : AudioEngineState) (now : ℝ) :
    AudioEngineState × List AudioCmd :=
  let oscCmds : List AudioCmd :=
    match st.oscStartTime with
    | some _ => [AudioCmd.oscStopNow]
    | none => []
  (⟨none⟩,
    oscCmds ++
    [AudioCmd.cancelScheduledValues AudioParam.ampGainLevel now,
     AudioCmd.setValueNow AudioParam.ampGainLevel 0])

/-! ### Scheduler (`src/App.tsx`) -/

/-- Pattern length: `STEPS_PER_BAR` (`src/constants`), fixed at 16. -/
def STEPS_PER_BAR : ℕ := 16

/-- Scheduling cursor owned by the loop (`src/App.tsx`, refs
`nextNoteTime` and `currentStepRef`). -/
structure SchedulerCursor where
  nextNoteTime : ℝ
  currentStep : ℕ

/-- `nextNote` (`src/App.tsx`, lines 124-129): advance the cursor by one
16th note of the tempo read from `paramsRef.current` at this advance. -/
noncomputable def nextNote (c : SchedulerCursor) (tempo : ℝ) : SchedulerCursor :=
  let secondsPerBeat : ℝ := 60 / tempo
  let secondsPerStep : ℝ := secondsPerBeat / 4
  ⟨c.nextNoteTime + secondsPerStep, (c.currentStep + 1) % STEPS_PER_BAR⟩

/-- `n` consecutive cursor advances at a fixed tempo. -/
noncomputable def nextNoteIter (c : SchedulerCursor) (tempo : ℝ) : ℕ → SchedulerCursor
  | 0 => c
  | n + 1 => nextNote (nextNoteIter c tempo n) tempo

/-- One published shared-state snapshot: the values held by
`patternRef.current` and `paramsRef.current` (`src/App.tsx`, lines 53-58).
The refs are re-synced from the editor state, so the ref contents at an
instant are the latest published Pattern/SynthParams. -/
structure Snapshot where
  pattern : List Step
  params : SynthParams

/-- The data `scheduleNote` (`src/App.tsx`, lines 131-148) computes for
one scheduled step and hands to `audioEngine.scheduleStep`: the step, the
look-ahead next step, the trigger time, the params and the step duration. -/
structure TriggerDecision where
  step : Step
  nextStep : Step
  time : ℝ
  params : SynthParams
  duration : ℝ

/-- Body of `scheduleNote` (`src/App.tsx`, lines 137-148): read the
current pattern/params from the refs (the snapshot published at call
time), look up the step and the following step, and compute the duration
`(60 / tempo) / 4` from the snapshot's tempo. -/
noncomputable def scheduleNoteDecision (snap : Snapshot) (stepNumber : ℕ)
    (time : ℝ) : TriggerDecision :=
  let currentParams := snap.params
  let currentPattern := snap.pattern
  let step := currentPattern.getD stepNumber default
  let nextStepIdx := (stepNumber + 1) % STEPS_PER_BAR
  let nextStep := currentPattern.getD nextStepIdx default
  let duration := 60 / currentParams.tempo / 4
  ⟨step, nextStep, time, currentParams, duration⟩

/-- The scheduler loop (`src/App.tsx`, lines 170-178) scheduling `n` more
steps: the `k`-th scheduled step (counted from the session start) reads
the snapshot `snaps k` that is published in the refs when that iteration
of `scheduleNote` runs, then the cursor advances with `nextNote` using the
same snapshot's tempo. -/
noncomputable def scheduleFrom (snaps : ℕ → Snapshot) :
    ℕ → SchedulerCursor → ℕ → List TriggerDecision
  | _, _, 0 => []
  | k, c, n + 1 =>
    scheduleNoteDecision (snaps k) c.currentStep c.nextNoteTime ::
      scheduleFrom snaps (k + 1) (nextNote c (snaps k).params.tempo) n

/-! ### MIDI emitter (`src/services/midiService.ts`) and the wall-clock
timeout queue of `scheduleNote` / `stopSequencer` (`src/App.tsx`) -/

/-- An outbound MIDI message. -/
inductive MidiMsg where
  | noteOn (note velocity : ℤ)
  | noteOff (note : ℤ)
deriving DecidableEq

/-- Raw byte triple of a message: Note On is `[0x90, note, velocity]` and
Note Off is `[0x80, note, 0]` (`midiService.ts`, lines 43 and 53). -/
def MidiMsg.bytes : MidiMsg → List ℤ
  | .noteOn n v => [0x90, n, v]
  | .noteOff n => [0x80, n, 0]

/-- `Math.max(0, Math.min(127, x))` (`midiService.ts`, lines 41-42). -/
def clampMidi (x : ℤ) : ℤ := max 0 (min 127 x)

/-- Connection state of the `MidiService`: Web MIDI access granted, an
output id selected, and `outputs.get(id)` finding a device. -/
structure MidiService where
  midiAccess : Bool
  selectedOutputId : Bool
  outputFound : Bool
deriving DecidableEq

/-- All three conditions that every send method checks before emitting. -/
def MidiService.ready (s : MidiService) : Bool :=
  s.midiAccess && s.selectedOutputId && s.outputFound

/-- `MidiService.sendNoteOn` (`midiService.ts`, lines 36-45): silently
drop when no access/output, else send `[0x90, safeNote, safeVel]` with
both bytes clamped to `0..127`. -/
def sendNoteOn (s : MidiService) (note velocity : ℤ) : List MidiMsg :=
  if s.ready then [MidiMsg.noteOn (clampMidi note) (clampMidi velocity)] else []

/-- `MidiService.sendNoteOff` (`midiService.ts`, lines 48-55). -/
def sendNoteOff (s : MidiService) (note : ℤ) : List MidiMsg :=
  if s.ready then [MidiMsg.noteOff (clampMidi note)] else []

/-- `MidiService.stopAll` (`midiService.ts`, lines 58-66): the panic, a
Note Off for every note number `0..127`. -/
def stopAll (s : MidiService) : List MidiMsg :=
  if s.ready then (List.range 128).map (fun i => MidiMsg.noteOff (i : ℤ)) else []

/-- The App-side MIDI note value `36 + step.note + step.octave * 12`
(`src/App.tsx`, line 152). -/
def midiBaseNote (step : Step) : ℤ := 36 + step.note + step.octave * 12

/-- The App-side velocity: 127 when accented else 100
(`src/App.tsx`, lines 153-154). -/
def midiVelocity (step : Step) : ℤ := if step.accent then 127 else 100

/-- What a pending `setTimeout` callback will do when it fires. -/
inductive TimeoutKind where
  /-- The scheduler's own re-arm tick (`timerID`, `src/App.tsx` line 176). -/
  | schedulerTick
  /-- The delayed MIDI dispatch of `scheduleNote` (`src/App.tsx` lines
  158-166): send Note On, then arm a Note Off `noteLen` later. -/
  | midiNoteOnFire (note velocity : ℤ) (noteLen : ℚ)
  /-- The nested Note Off timeout (`src/App.tsx` lines 163-165). -/
  | midiNoteOffFire (note : ℤ)
deriving DecidableEq

/-- A pending wall-clock timeout. -/
structure Timeout where
  fireAt : ℚ
  kind : TimeoutKind
deriving DecidableEq

/-- The MIDI part of `scheduleNote` (`src/App.tsx`, lines 150-167): for an
active step, arm one Note On timeout after `max 0 (time - now)` carrying
the note length `slide ? duration * 1.05 : duration * 0.7`; inactive
steps arm nothing. -/
def midiTimeoutsOfStep (step : Step) (now time duration : ℚ) : List Timeout :=
  if step.active then
    let delayMs := max 0 (time - now)
    let noteLen : ℚ := if step.slide then duration * 1.05 else duration * 0.7
    [⟨now + delayMs, TimeoutKind.midiNoteOnFire (midiBaseNote step) (midiVelocity step) noteLen⟩]
  else []

/-- Effect of one timeout firing after the transport has stopped: a
scheduler tick emits nothing and does not re-arm (`isPlayingRef` is
`false`, and `stopSequencer` has cleared it anyway); a Note On timeout
sends Note On and arms its Note Off; a Note Off timeout sends Note Off. -/
def fireTimeout (svc : MidiService) : Timeout → List MidiMsg × List Timeout
  | ⟨_, TimeoutKind.schedulerTick⟩ => ([], [])
  | ⟨f, TimeoutKind.midiNoteOnFire n v len⟩ =>
    (sendNoteOn svc n v, [⟨f + len, TimeoutKind.midiNoteOffFire n⟩])
  | ⟨_, TimeoutKind.midiNoteOffFire n⟩ => (sendNoteOff svc n, [])

/-- Termination measure: a Note On timeout causes at most one further
firing (its Note Off), other timeouts none. -/
def Timeout.weight : Timeout → ℕ
  | ⟨_, TimeoutKind.midiNoteOnFire _ _ _⟩ => 2
  | _ => 1

/-- Total firing measure of a pending-timeout list. -/
def totalWeight (l : List Timeout) : ℕ := (l.map Timeout.weight).sum

/-- Remove the earliest-firing pending timeout (JS timers fire in
deadline order, ties broken by arming order). -/
def extractMin : List Timeout → Option (Timeout × List Timeout)
  | [] => none
  | t :: ts =>
    match extractMin ts with
    | none => some (t, [])
    | some (m, rest) =>
      if t.fireAt ≤ m.fireAt then some (t, ts) else some (m, t :: rest)

/-- Run the pending timeouts to quiescence, fuel-bounded: repeatedly fire
the earliest pending timeout and append what it arms. -/
def drainFuel (svc : MidiService) : ℕ → List Timeout → List MidiMsg
  | 0, _ => []
  | fuel + 1, l =>
    match extractMin l with
    | none => []
    | some (m, rest) =>
      (fireTimeout svc m).1 ++ drainFuel svc fuel (rest ++ (fireTimeout svc m).2)

/-- All MIDI messages the pending timeouts will ever emit, in firing
order (`totalWeight l` fuel always suffices, see `drainFuel_sufficient`). -/
def drain (svc : MidiService) (l : List Timeout) : List MidiMsg :=
  drainFuel svc (totalWeight l) l

/-- `stopSequencer` (`src/App.tsx`, lines 193-201) clears exactly the
pending scheduler tick (`clearTimeout(timerID.current)`); the MIDI
Note On / Note Off timeouts armed by `scheduleNote` are not cancelled. -/
def stopPending (pending : List Timeout) : List Timeout :=
  pending.filter fun t =>
    match t.kind with
    | TimeoutKind.schedulerTick => false
    | _ => true

/-- Outbound MIDI activity from the moment `stopSequencer` runs: the
panic (`midiService.stopAll()`) fires synchronously, then the surviving
timeouts fire in deadline order. -/
def stopMidiTrace (svc : MidiService) (pending : List Timeout) : List MidiMsg :=
  stopAll svc ++ drain svc (stopPending pending)

/-- Every Note On in the trace is followed, strictly later in the trace,
by a Note Off carrying the same note number. -/
def noteOnsMatched : List MidiMsg → Prop
  | [] => True
  | MidiMsg.noteOn n _ :: rest => MidiMsg.noteOff n ∈ rest ∧ noteOnsMatched rest
  | MidiMsg.noteOff _ :: rest => noteOnsMatched rest

/-! ### Concrete inputs used by counterexamples and witnesses -/

/-- A MIDI service with access, a selected output and a found device. -/
def svcReady : MidiService := ⟨true, true, true⟩

/-- An active, plain (no slide, no accent) step playing note C, octave 0. -/
def stepPlain : Step := ⟨true, 0, 0, false, false⟩

/-- An inactive step. -/
def stepOff : Step := ⟨false, 0, 0, false, false⟩

/-- An active sliding step. -/
def stepSlide : Step := ⟨true, 0, 0, true, false⟩

/-- Nominal mid-range knob settings at tempo 120. -/
noncomputable def paramsNominal : SynthParams :=
  ⟨50, 50, 50, 50, 50, 120, Waveform.sawtooth, 80⟩

/-- Knob settings whose volume percentage (200) is out of range. -/
noncomputable def paramsOverdrive : SynthParams :=
  ⟨50, 50, 50, 50, 50, 120, Waveform.sawtooth, 200⟩

/-- A constant published-snapshot stream (no editor mutation). -/
noncomputable def snapsConst : ℕ → Snapshot := fun _ => ⟨[stepPlain], paramsNominal⟩

/-- Pending timeouts at the moment stop is pressed in a session where the
look-ahead scheduler has armed the next tick (due at 0.1 s) and
`scheduleNote` has just armed the MIDI dispatch of an active plain step
triggering 0.05 s ahead with step duration 0.125 s. -/
def pendingEx : List Timeout :=
  ⟨1/10, TimeoutKind.schedulerTick⟩ :: midiTimeoutsOfStep stepPlain 0 (1/20) (1/8)

/-- Modelled from the spec: clamp of one percentage field to `[0, 100]`
("the engine additionally clamps defensively at its boundaries (0 and
100)", spec §7). Used only to state the clamping claim; the engine source
contains no such clamp. -/
def clampPct (x : ℝ) : ℝ := max 0 (min 100 x)

/-- Modelled from the spec: `SynthParams` with every percentage field
clamped to `[0, 100]` (spec §3 and §7). The claim under test is that the
engine behaves as if its percentage inputs had been clamped this way. -/
def clampParams (p : SynthParams) : SynthParams :=
  { p with
    cutoff := clampPct p.cutoff
    resonance := clampPct p.resonance
    envMod := clampPct p.envMod
    decay := clampPct p.decay
    accentLevel := clampPct p.accentLevel
    volume := clampPct p.volume }

/-! ## Helper lemmas for the timeout-queue model -/

theorem extractMin_eq_none {l : List Timeout} (h : extractMin l = none) : l = [] := by
  cases l with
  | nil => rfl
  | cons t ts =>
    simp only [extractMin] at h
    rcases hm : extractMin ts with _ | ⟨m, rest⟩ <;> rw [hm] at h
    · cases h
    · by_cases hle : t.fireAt ≤ m.fireAt <;> simp [hle] at h

theorem extractMin_perm {l : List Timeout} {m : Timeout} {rest : List Timeout}
    (h : extractMin l = some (m, rest)) : l.Perm (m :: rest) := by
  induction l generalizing m rest with
  | nil => cases h
  | cons t ts ih =>
    simp only [extractMin] at h
    rcases hm : extractMin ts with _ | ⟨m2, rest2⟩ <;> rw [hm] at h <;> dsimp only at h
    · have hts := extractMin_eq_none hm
      subst hts
      simp only [Option.some.injEq, Prod.mk.injEq] at h
      obtain ⟨rfl, rfl⟩ := h
      exact List.Perm.refl _
    · by_cases hle : t.fireAt ≤ m2.fireAt
      · rw [if_pos hle] at h
        simp only [Option.some.injEq, Prod.mk.injEq] at h
        obtain ⟨rfl, rfl⟩ := h
        exact List.Perm.refl _
      · rw [if_neg hle] at h
        simp only [Option.some.injEq, Prod.mk.injEq] at h
        obtain ⟨rfl, rfl⟩ := h
        exact ((ih hm).cons t).trans (List.Perm.swap m2 t rest2)

theorem totalWeight_perm {l l2 : List Timeout} (h : l.Perm l2) :
    totalWeight l = totalWeight l2 :=
  List.Perm.sum_eq (h.map Timeout.weight)

theorem weight_pos (t : Timeout) : 1 ≤ t.weight := by
  rcases t with ⟨f, k⟩
  cases k <;> simp [Timeout.weight]

theorem fireTimeout_weight (svc : MidiService) (m : Timeout) :
    totalWeight (fireTimeout svc m).2 + 1 ≤ m.weight := by
  rcases m with ⟨f, k⟩
  cases k <;> simp [fireTimeout, totalWeight, Timeout.weight]

theorem totalWeight_step (svc : MidiService) {l : List Timeout} {m : Timeout}
    {rest : List Timeout} (h : extractMin l = some (m, rest)) :
    totalWeight (rest ++ (fireTimeout svc m).2) + 1 ≤ totalWeight l := by
  have hp : totalWeight l = totalWeight (m :: rest) := totalWeight_perm (extractMin_perm h)
  have hw := fireTimeout_weight svc m
  have hcons : totalWeight (m :: rest) = m.weight + totalWeight rest := by
    simp [totalWeight]
  have happ : totalWeight (rest ++ (fireTimeout svc m).2)
      = totalWeight rest + totalWeight (fireTimeout svc m).2 := by
    simp [totalWeight]
  omega

theorem noteOff_mem_drainFuel (svc : MidiService) (hr : svc.ready = true) :
    ∀ fuel (l : List Timeout), totalWeight l ≤ fuel →
      ∀ f n, (⟨f, TimeoutKind.midiNoteOffFire n⟩ : Timeout) ∈ l →
        MidiMsg.noteOff (clampMidi n) ∈ drainFuel svc fuel l := by
  intro fuel
  induction fuel with
  | zero =>
    intro l hl f n hmem
    exfalso
    have h1 : 1 ≤ totalWeight l := by
      calc 1 ≤ Timeout.weight ⟨f, TimeoutKind.midiNoteOffFire n⟩ := weight_pos _
      _ ≤ totalWeight l := by
        unfold totalWeight
        exact List.single_le_sum (fun x _ => Nat.zero_le x) _ (List.mem_map_of_mem _ hmem)
    omega
  | succ fuel ih =>
    intro l hl f n hmem
    rcases hext : extractMin l with _ | ⟨m, rest⟩
    · rw [extractMin_eq_none hext] at hmem
      cases hmem
    · have hle : totalWeight (rest ++ (fireTimeout svc m).2) ≤ fuel := by
        have := totalWeight_step svc hext
        omega
      have hmem2 : (⟨f, TimeoutKind.midiNoteOffFire n⟩ : Timeout) ∈ m :: rest :=
        (extractMin_perm hext).mem_iff.mp hmem
      simp only [drainFuel, hext]
      cases hmem2 with
      | head => simp [fireTimeout, sendNoteOff, hr]
      | tail _ hrest =>
        exact List.mem_append_right _ (ih _ hle f n (List.mem_append_left _ hrest))

theorem noteOnsMatched_drainFuel (svc : MidiService) :
    ∀ fuel (l : List Timeout), totalWeight l ≤ fuel →
      noteOnsMatched (drainFuel svc fuel l) := by
  intro fuel
  induction fuel with
  | zero => intro l hl; simp [drainFuel, noteOnsMatched]
  | succ fuel ih =>
    intro l hl
    rcases hext : extractMin l with _ | ⟨m, rest⟩
    · simp [drainFuel, hext, noteOnsMatched]
    · have hle : totalWeight (rest ++ (fireTimeout svc m).2) ≤ fuel := by
        have := totalWeight_step svc hext
        omega
      rcases m with ⟨f, k⟩
      cases k with
      | schedulerTick =>
        simp only [drainFuel, hext, fireTimeout, List.nil_append]
        exact ih _ hle
      | midiNoteOnFire n v len =>
        by_cases hr : svc.ready = true
        · simp only [drainFuel, hext, fireTimeout, sendNoteOn, hr, if_pos,
            List.cons_append, List.nil_append, noteOnsMatched]
          refine ⟨?_, ih _ hle⟩
          exact noteOff_mem_drainFuel svc hr fuel _ hle (f + len) n
            (List.mem_append_right _ (by simp [fireTimeout]))
        · simp only [drainFuel, hext, fireTimeout, sendNoteOn, hr, if_neg,
            Bool.false_eq_true, List.nil_append]
          exact ih _ hle
      | midiNoteOffFire n =>
        by_cases hr : svc.ready = true
        · simp only [drainFuel, hext, fireTimeout, sendNoteOff, hr, if_pos,
            List.cons_append, List.nil_append, noteOnsMatched]
          exact ih _ hle
        · simp only [drainFuel, hext, fireTimeout, sendNoteOff, hr, if_neg,
            Bool.false_eq_true, List.nil_append]
          exact ih _ hle

/-! ## Claim C1 -/

/-- Claim C1, counterexample: in a session where the scheduler has armed
its next tick and the look-ahead has already armed the delayed MIDI
dispatch of an active step (trigger 0.05 s ahead), stopping cancels only
the tick: the pending Note On still fires after the panic, so a further
Note On (note 36, velocity 100) is dispatched after stop and the panic is
not the final outbound MIDI activity. -/
theorem stop_panic_not_final_midi_activity :
    drain svcReady (stopPending pendingEx) =
      [MidiMsg.noteOn 36 100, MidiMsg.noteOff 36] ∧
    MidiMsg.noteOn 36 100 ∈ drain svcReady (stopPending pendingEx) := by
  constructor <;> decide

/-- Claim C1 (amended): stopping cancels the pending scheduler tick, so no
further step is ever enqueued; the panic sends a Note Off for every note
number 0..127, so every Note On already sent (its note byte is clamped
into 0..127) has a matching Note Off no later than the panic; but
already-armed MIDI timeouts survive stop, and each late Note On they
dispatch after the panic is itself followed by its matching Note Off. -/
theorem stop_cancels_tick_panic_matches_and_late_notes_matched
    (svc : MidiService) (pending : List Timeout) (hr : svc.ready = true) :
    (∀ t ∈ stopPending pending, t.kind ≠ TimeoutKind.schedulerTick) ∧
    (∀ n : ℤ, 0 ≤ n → n ≤ 127 → MidiMsg.noteOff n ∈ stopAll svc) ∧
    noteOnsMatched (drain svc (stopPending pending)) := by
  refine ⟨?_, ?_, ?_⟩
  · intro t ht
    simp only [stopPending, List.mem_filter] at ht
    rcases t with ⟨f, k⟩
    cases k <;> simp_all
  · intro n h0 h127
    simp [stopAll, hr]
    exact ⟨n.toNat, by omega, by omega⟩
  · exact noteOnsMatched_drainFuel svc _ _ le_rfl

/-- Claim C1, witness for the amended theorem at the ready service and the
concrete pending queue. -/
theorem stop_cancels_tick_witness :
    svcReady.ready = true ∧
    ((∀ t ∈ stopPending pendingEx, t.kind ≠ TimeoutKind.schedulerTick) ∧
     (∀ n : ℤ, 0 ≤ n → n ≤ 127 → MidiMsg.noteOff n ∈ stopAll svcReady) ∧
     noteOnsMatched (drain svcReady (stopPending pendingEx))) :=
  ⟨by decide,
   stop_cancels_tick_panic_matches_and_late_notes_matched svcReady pendingEx (by decide)⟩

/-! ## Claim C9 -/

/-- Claim C9: for every active step dispatched over MIDI, the Note On
velocity is 127 when `step.accent` and 100 otherwise, and the note byte
actually sent is `clamp(36 + step.note + step.octave*12, 0, 127)`; the
raw triple is `[0x90, note, velocity]`. -/
theorem midi_noteOn_velocity_and_note (svc : MidiService) (step : Step)
    (hready : svc.ready = true) (hactive : step.active = true) :
    sendNoteOn svc (midiBaseNote step) (midiVelocity step) =
      [MidiMsg.noteOn (max 0 (min 127 (36 + step.note + step.octave * 12)))
        (if step.accent then 127 else 100)] ∧
    (sendNoteOn svc (midiBaseNote step) (midiVelocity step)).map MidiMsg.bytes =
      [[0x90, max 0 (min 127 (36 + step.note + step.octave * 12)),
        if step.accent then 127 else 100]] := by
  refine ⟨?_, ?_⟩ <;>
    simp [sendNoteOn, hready, clampMidi, midiBaseNote, MidiMsg.bytes] <;>
    cases hacc : step.accent <;> simp +decide [midiVelocity, hacc]

/-- Claim C9, witness at the ready service and an active plain step. -/
theorem midi_noteOn_velocity_witness :
    svcReady.ready = true ∧ stepPlain.active = true ∧
    sendNoteOn svcReady (midiBaseNote stepPlain) (midiVelocity stepPlain) =
      [MidiMsg.noteOn (max 0 (min 127 (36 + stepPlain.note + stepPlain.octave * 12)))
        (if stepPlain.accent then 127 else 100)] :=
  ⟨by decide, by decide,
   (midi_noteOn_velocity_and_note svcReady stepPlain (by decide) (by decide)).1⟩

/-! ## Claim C6 -/

theorem secondsPerStep_eq (t : ℝ) : (60 : ℝ) / t / 4 = 15 / t := by
  rw [div_div, show (t * 4 : ℝ) = 4 * t by ring, show (60 : ℝ) = 4 * 15 by norm_num,
    mul_div_mul_left 15 t (by norm_num : (4 : ℝ) ≠ 0)]

theorem nextNote_time (c : SchedulerCursor) (t : ℝ) :
    (nextNote c t).nextNoteTime = c.nextNoteTime + 15 / t := by
  simp only [nextNote]
  rw [secondsPerStep_eq]

/-- Claim C6: for every tempo in [60, 200] each cursor advance adds
exactly `secondsPerStep = 60/tempo/4 = 15/tempo` to `nextEventTime`
(tempo re-read on every advance, so a change affects only future
increments), sets `currentStepIndex` to `(i+1) mod 16` (hence always in
[0,15], wrapping 15 to 0), and `n` advances at a fixed tempo add exactly
`n * (15/tempo)`. -/
theorem cursor_advance_exact (tempo : ℝ) (c : SchedulerCursor)
    (h60 : 60 ≤ tempo) (h200 : tempo ≤ 200) :
    (nextNote c tempo).nextNoteTime = c.nextNoteTime + 15 / tempo ∧
    (nextNote c tempo).currentStep = (c.currentStep + 1) % 16 ∧
    (nextNote c tempo).currentStep < 16 ∧
    (c.currentStep = 15 → (nextNote c tempo).currentStep = 0) ∧
    (∀ n : ℕ, (nextNoteIter c tempo n).nextNoteTime
        = c.nextNoteTime + n * (15 / tempo)) ∧
    (∀ tempo2 : ℝ, (nextNote (nextNote c tempo) tempo2).nextNoteTime
        = c.nextNoteTime + 15 / tempo + 15 / tempo2) := by
  refine ⟨nextNote_time c tempo, ?_, ?_, ?_, ?_, ?_⟩
  · simp [nextNote, STEPS_PER_BAR]
  · simp only [nextNote, STEPS_PER_BAR]
    exact Nat.mod_lt _ (by norm_num)
  · intro h15
    simp [nextNote, STEPS_PER_BAR, h15]
  · intro n
    induction n with
    | zero => simp [nextNoteIter]
    | succ n ih =>
      simp only [nextNoteIter]
      rw [nextNote_time, ih]
      push_cast
      ring
  · intro tempo2
    rw [nextNote_time, nextNote_time]

/-- Claim C6, witness at tempo 120 from the origin cursor. -/
theorem cursor_advance_witness :
    (60 : ℝ) ≤ 120 ∧ (120 : ℝ) ≤ 200 ∧
    (nextNote ⟨0, 0⟩ 120).nextNoteTime = (0 : ℝ) + 15 / 120 :=
  ⟨by norm_num, by norm_num,
   (cursor_advance_exact 120 ⟨0, 0⟩ (by norm_num) (by norm_num)).1⟩

/-! ## Claim C3 -/

theorem scheduleFrom_take_congr (snaps snaps2 : ℕ → Snapshot) :
    ∀ (n k : ℕ) (c : SchedulerCursor) (m : ℕ), m ≤ n →
      (∀ j, j < m → snaps (k + j) = snaps2 (k + j)) →
      (scheduleFrom snaps k c n).take m = (scheduleFrom snaps2 k c n).take m := by
  intro n
  induction n with
  | zero =>
    intro k c m hm _
    have h0 : m = 0 := Nat.le_zero.mp hm
    subst h0
    simp
  | succ n ih =>
    intro k c m hm hagree
    cases m with
    | zero => simp
    | succ m =>
      have h0 : snaps k = snaps2 k := by
        have := hagree 0 (Nat.succ_pos m)
        simpa using this
      simp only [scheduleFrom, List.take_succ_cons]
      rw [h0]
      congr 1
      exact ih (k + 1) (nextNote c (snaps2 k).params.tempo) m (Nat.succ_le_succ_iff.mp hm)
        (fun j hj => by
          have h2 : k + 1 + j = k + (j + 1) := by omega
          rw [h2]
          exact hagree (j + 1) (by omega))

/-- Claim C3: the iteration of the scheduler loop that schedules the
`k`-th step reads the snapshot published in the refs at that iteration
(`snaps k`), not the snapshot captured when the loop started; and if two
snapshot streams agree on the first `m` iterations (a mutation published
only from iteration `m` onward), the first `m` scheduled trigger
decisions are identical — an editor mutation takes effect from the next
scheduled step onward and never alters an already-enqueued decision. -/
theorem scheduler_reads_latest_published_snapshot
    (snaps snaps2 : ℕ → Snapshot) (c : SchedulerCursor) (k n m : ℕ)
    (hm : m ≤ n) (hagree : ∀ j, j < m → snaps (k + j) = snaps2 (k + j)) :
    (∀ (c2 : SchedulerCursor) (n2 : ℕ),
      (scheduleFrom snaps k c2 (n2 + 1)).head? =
        some (scheduleNoteDecision (snaps k) c2.currentStep c2.nextNoteTime)) ∧
    (scheduleFrom snaps k c n).take m = (scheduleFrom snaps2 k c n).take m := by
  refine ⟨?_, scheduleFrom_take_congr snaps snaps2 n k c m hm hagree⟩
  intro c2 n2
  simp [scheduleFrom]

/-- Claim C3, witness with the constant snapshot stream, one iteration. -/
theorem scheduler_reads_latest_witness :
    (1 : ℕ) ≤ 1 ∧
    ((∀ (c2 : SchedulerCursor) (n2 : ℕ),
      (scheduleFrom snapsConst 0 c2 (n2 + 1)).head? =
        some (scheduleNoteDecision (snapsConst 0) c2.currentStep c2.nextNoteTime)) ∧
     (scheduleFrom snapsConst 0 ⟨0, 0⟩ 1).take 1 =
       (scheduleFrom snapsConst 0 ⟨0, 0⟩ 1).take 1) :=
  ⟨le_refl 1,
   scheduler_reads_latest_published_snapshot snapsConst snapsConst ⟨0, 0⟩ 0 1 1 (le_refl 1)
     (fun _ _ => rfl)⟩

/-! ## Claim C5 -/

/-- Claim C5, counterexample: right after the transport enters Playing,
before any active step has triggered, the engine holds zero voices — here
the session's first trigger is an inactive step and the voice count is
still 0 while Playing, refuting "exactly one voice instance exists at all
times while Playing" and "created once on the first Playing transition"
(creation is lazy, on the first trigger of an active step). -/
theorem playing_with_zero_voices :
    ((scheduleStep ⟨none⟩ stepOff none 0 paramsNominal (1/8)).1).voiceCount = 0 ∧
    stepOff.active = false :=
  ⟨rfl, rfl⟩

/-- Claim C5 (amended): the voice is created lazily at the first trigger
of an active step (not on the Playing transition itself); at most one
voice ever exists; an existing voice is reused unchanged by every further
trigger (never recreated per step); stop releases it, leaving zero voices
while Stopped. -/
theorem voice_singleton_lifecycle
    (st : AudioEngineState) (step : Step) (nextStep : Option Step)
    (time : ℝ) (params : SynthParams) (stepDuration : ℝ) (t0 now : ℝ)
    (hsome : st.oscStartTime = some t0) :
    (scheduleStep st step nextStep time params stepDuration).1.oscStartTime = some t0 ∧
    (∀ st2 : AudioEngineState, st2.oscStartTime = none →
      (scheduleStep st2 step nextStep time params stepDuration).1.oscStartTime
        = if step.active then some time else none) ∧
    st.voiceCount ≤ 1 ∧
    (engineStop st now).1.voiceCount = 0 := by
  refine ⟨?_, ?_, ?_, ?_⟩
  · cases hact : step.active <;> simp [scheduleStep, hact, hsome]
  · intro st2 h2
    cases hact : step.active <;> simp [scheduleStep, hact, h2]
  · rcases st with ⟨o⟩
    cases o <;> simp [AudioEngineState.voiceCount]
  · simp [engineStop, AudioEngineState.voiceCount]

/-- Claim C5, witness: a live voice started at 0 is reused by a trigger. -/
theorem voice_singleton_witness :
    (AudioEngineState.mk (some 0)).oscStartTime = some 0 ∧
    (scheduleStep ⟨some 0⟩ stepPlain none 0 paramsNominal (1/8)).1.oscStartTime = some 0 :=
  ⟨rfl, (voice_singleton_lifecycle ⟨some 0⟩ stepPlain none 0 paramsNominal (1/8) 0 0 rfl).1⟩

/-! ## Claim C2 -/

/-- Claim C2, counterexample: on a trigger of an active plain step, the
engine schedules a new oscillator-frequency automation point with no
prior `cancelScheduledValues` on that parameter (`cancelFirstOn` is
`false`), and likewise schedules filter Q without cancellation — so it is
not the case that every automated parameter the trigger schedules on is
cancelled first; only amp gain and filter frequency are. -/
theorem oscFreq_and_filterQ_not_cancelled :
    cancelFirstOn AudioParam.oscFrequency
      (scheduleStep ⟨some 0⟩ stepPlain none 0 paramsNominal (1/8)).2 = false ∧
    AudioCmd.setValueAtTime AudioParam.oscFrequency (noteFrequency 36) 0 ∈
      (scheduleStep ⟨some 0⟩ stepPlain none 0 paramsNominal (1/8)).2 ∧
    cancelFirstOn AudioParam.filterQ
      (scheduleStep ⟨some 0⟩ stepPlain none 0 paramsNominal (1/8)).2 = false := by
  refine ⟨?_, ?_, ?_⟩ <;>
    simp +decide [scheduleStep, stepPlain, paramsNominal, cancelFirstOn,
      AudioCmd.isCancelOn, AudioCmd.schedulesOn]

set_option maxHeartbeats 1600000 in
/-- Claim C2 (amended): on every trigger of an active step, previously
scheduled automation at or after the trigger time is cancelled before any
new point only on the amplitude gain and the filter frequency (each gets
`cancelScheduledValues(time)` emitted before its new points); the
oscillator frequency and the filter Q receive new automation points with
no cancellation at all. -/
theorem trigger_cancels_only_gain_and_filter_freq
    (st : AudioEngineState) (step : Step) (nextStep : Option Step)
    (time : ℝ) (params : SynthParams) (stepDuration : ℝ)
    (hactive : step.active = true) :
    cancelFirstOn AudioParam.ampGainLevel
      (scheduleStep st step nextStep time params stepDuration).2 = true ∧
    cancelFirstOn AudioParam.filterFrequency
      (scheduleStep st step nextStep time params stepDuration).2 = true ∧
    AudioCmd.cancelScheduledValues AudioParam.ampGainLevel time ∈
      (scheduleStep st step nextStep time params stepDuration).2 ∧
    AudioCmd.cancelScheduledValues AudioParam.filterFrequency time ∈
      (scheduleStep st step nextStep time params stepDuration).2 ∧
    (∀ c ∈ (scheduleStep st step nextStep time params stepDuration).2,
      c.isCancelOn AudioParam.oscFrequency = false ∧
      c.isCancelOn AudioParam.filterQ = false) := by
  rcases st with ⟨o⟩
  rcases o with _ | t0 <;>
  cases hsl : step.slide <;>
  rcases nextStep with _ | ns <;>
  try cases hns : ns.active
  all_goals
    refine ⟨?_, ?_, ?_, ?_, ?_⟩ <;>
    simp +decide [scheduleStep, hactive, hsl, cancelFirstOn,
      AudioCmd.isCancelOn, AudioCmd.schedulesOn, *]

/-- Claim C2, witness at an active plain step. -/
theorem trigger_cancels_witness :
    stepPlain.active = true ∧
    AudioCmd.cancelScheduledValues AudioParam.ampGainLevel 0 ∈
      (scheduleStep ⟨some 0⟩ stepPlain none 0 paramsNominal (1/8)).2 :=
  ⟨rfl,
   (trigger_cancels_only_gain_and_filter_freq ⟨some 0⟩ stepPlain none 0 paramsNominal
     (1/8) rfl).2.2.1⟩

/-! ## Claim C4 -/

/-- Claim C4, counterexample: with volume = 200 (outside [0,100]) on an
active plain step, the engine schedules the amplitude gate to 200/100 = 2
at trigger time; had it clamped the percentage at its boundary 100, the
scheduled value would be 1 — the engine does not clamp percentage fields
at its boundaries, so its behaviour differs from its behaviour on the
clamped parameters. -/
theorem engine_not_clamping_percentages :
    AudioCmd.setValueAtTime AudioParam.ampGainLevel 2 0 ∈
      (scheduleStep ⟨some 0⟩ stepPlain none 0 paramsOverdrive (1/8)).2 ∧
    AudioCmd.setValueAtTime AudioParam.ampGainLevel 2 0 ∉
      (scheduleStep ⟨some 0⟩ stepPlain none 0 (clampParams paramsOverdrive) (1/8)).2 ∧
    (scheduleStep ⟨some 0⟩ stepPlain none 0 paramsOverdrive (1/8)).2 ≠
      (scheduleStep ⟨some 0⟩ stepPlain none 0 (clampParams paramsOverdrive) (1/8)).2 := by
  have h1 : AudioCmd.setValueAtTime AudioParam.ampGainLevel 2 0 ∈
      (scheduleStep ⟨some 0⟩ stepPlain none 0 paramsOverdrive (1/8)).2 := by
    norm_num [scheduleStep, stepPlain, paramsOverdrive]
  have h2 : AudioCmd.setValueAtTime AudioParam.ampGainLevel 2 0 ∉
      (scheduleStep ⟨some 0⟩ stepPlain none 0 (clampParams paramsOverdrive) (1/8)).2 := by
    norm_num [scheduleStep, stepPlain, paramsOverdrive, clampParams, clampPct]
    simp
  exact ⟨h1, h2, fun h => h2 (h ▸ h1)⟩

/-- Claim C4 (amended): the engine does not clamp its percentage inputs
at 0 and 100; each percentage flows into the automation exactly as given
(divided by 100): on a non-accented active step the amp gate opens to
`volume/100`, filter Q is set to `resonance/100*20` and the filter attack
ramps to `min 20000 (cutoff/100*8000 + 50 + envMod/100*10000)` — the only
defensive caps are this 20000 ceiling and, on accented steps, the `min 1`
/ `max 0.1` caps on the derived effective values. -/
theorem percentages_flow_unclamped
    (st : AudioEngineState) (step : Step) (nextStep : Option Step)
    (time : ℝ) (params : SynthParams) (stepDuration : ℝ)
    (hactive : step.active = true) (hacc : step.accent = false) :
    AudioCmd.setValueAtTime AudioParam.ampGainLevel (params.volume / 100) time ∈
      (scheduleStep st step nextStep time params stepDuration).2 ∧
    AudioCmd.setValueAtTime AudioParam.filterQ (params.resonance / 100 * 20) time ∈
      (scheduleStep st step nextStep time params stepDuration).2 ∧
    AudioCmd.linearRampToValueAtTime AudioParam.filterFrequency
      (min 20000 (params.cutoff / 100 * 8000 + 50 + params.envMod / 100 * 10000))
      (time + 0.01) ∈
      (scheduleStep st step nextStep time params stepDuration).2 := by
  rcases st with ⟨o⟩
  rcases o with _ | t0 <;>
  cases hsl : step.slide <;>
  rcases nextStep with _ | ns <;>
  try cases hns : ns.active
  all_goals
    refine ⟨?_, ?_, ?_⟩ <;>
    simp [scheduleStep, hactive, hacc, hsl, *]

/-- Claim C4, witness at an active plain step with nominal knobs. -/
theorem percentages_flow_witness :
    stepPlain.active = true ∧ stepPlain.accent = false ∧
    AudioCmd.setValueAtTime AudioParam.ampGainLevel (paramsNominal.volume / 100) 0 ∈
      (scheduleStep ⟨some 0⟩ stepPlain none 0 paramsNominal (1/8)).2 :=
  ⟨rfl, rfl,
   (percentages_flow_unclamped ⟨some 0⟩ stepPlain none 0 paramsNominal (1/8) rfl rfl).1⟩

/-! ## Claim C7 -/

/-- Claim C7: on the trigger of an active step with slide = true whose
following step is active, the oscillator-frequency automation consists of
the instant pitch set at the trigger followed by one linear ramp ending
exactly at `time + stepDuration` with the following step's target
frequency `440·2^((36+note+octave·12−69)/12)` (a Web Audio linear ramp
attains its target exactly at its end time, so the scheduled frequency at
`trigger+stepDuration` is the next step's frequency); and the only
amplitude-gate automation is the opening to the effective volume at the
trigger — no close is scheduled, so the gate is never closed anywhere in
`[trigger, trigger+stepDuration]`. -/
theorem slide_ramps_to_next_freq_and_gate_stays_open
    (st : AudioEngineState) (step ns : Step) (time : ℝ) (params : SynthParams)
    (stepDuration : ℝ) (hactive : step.active = true) (hslide : step.slide = true)
    (hns : ns.active = true) :
    (scheduleStep st step (some ns) time params stepDuration).2.filter
        (fun c => c.schedulesOn AudioParam.oscFrequency) =
      [AudioCmd.setValueAtTime AudioParam.oscFrequency
         (noteFrequency (36 + step.note + step.octave * 12)) time,
       AudioCmd.linearRampToValueAtTime AudioParam.oscFrequency
         (noteFrequency (36 + ns.note + ns.octave * 12)) (time + stepDuration)] ∧
    (scheduleStep st step (some ns) time params stepDuration).2.filter
        (fun c => c.schedulesOn AudioParam.ampGainLevel) =
      [AudioCmd.setValueAtTime AudioParam.ampGainLevel
         (if step.accent then min 1 (params.volume / 100 + 0.3 * (params.accentLevel / 100))
          else params.volume / 100) time] := by
  rcases st with ⟨o⟩
  rcases o with _ | t0 <;>
    refine ⟨?_, ?_⟩ <;>
    simp +decide [scheduleStep, hactive, hslide, hns, AudioCmd.schedulesOn]

/-- Claim C7, witness: a sliding step into an active plain step. -/
theorem slide_ramps_witness :
    stepSlide.active = true ∧ stepSlide.slide = true ∧ stepPlain.active = true ∧
    (scheduleStep ⟨some 0⟩ stepSlide (some stepPlain) 0 paramsNominal (1/8)).2.filter
        (fun c => c.schedulesOn AudioParam.ampGainLevel) =
      [AudioCmd.setValueAtTime AudioParam.ampGainLevel
         (if stepSlide.accent then
            min 1 (paramsNominal.volume / 100 + 0.3 * (paramsNominal.accentLevel / 100))
          else paramsNominal.volume / 100) 0] :=
  ⟨rfl, rfl, rfl,
   (slide_ramps_to_next_freq_and_gate_stays_open ⟨some 0⟩ stepSlide stepPlain 0
     paramsNominal (1/8) rfl rfl rfl).2⟩

/-! ## Claim C10 -/

/-- Claim C10: on the trigger of an active step with slide = true whose
following step is inactive, no oscillator-frequency ramp is scheduled
(the pitch is only set instantly at the trigger), yet the gate close is
still skipped — the only amplitude-gate automation is the opening to the
effective volume at the trigger, so the gate stays open past the step's
end; the following inactive step's trigger then emits exactly the
drive-to-zero `setTargetAtTime(0, time, 0.01)` on the gate. -/
theorem slide_into_inactive_no_ramp_gate_open
    (st : AudioEngineState) (step ns : Step) (time : ℝ) (params : SynthParams)
    (stepDuration : ℝ) (hactive : step.active = true) (hslide : step.slide = true)
    (hns : ns.active = false) :
    (scheduleStep st step (some ns) time params stepDuration).2.filter
        (fun c => c.schedulesOn AudioParam.oscFrequency) =
      [AudioCmd.setValueAtTime AudioParam.oscFrequency
         (noteFrequency (36 + step.note + step.octave * 12)) time] ∧
    (scheduleStep st step (some ns) time params stepDuration).2.filter
        (fun c => c.schedulesOn AudioParam.ampGainLevel) =
      [AudioCmd.setValueAtTime AudioParam.ampGainLevel
         (if step.accent then min 1 (params.volume / 100 + 0.3 * (params.accentLevel / 100))
          else params.volume / 100) time] ∧
    (∀ (st2 : AudioEngineState) (next2 : Option Step) (time2 : ℝ)
        (params2 : SynthParams) (dur2 : ℝ),
      (scheduleStep st2 ns next2 time2 params2 dur2).2 =
        [AudioCmd.setTargetAtTime AudioParam.ampGainLevel 0 time2 0.01]) := by
  refine ⟨?_, ?_, ?_⟩
  · rcases st with ⟨o⟩
    rcases o with _ | t0 <;>
      simp +decide [scheduleStep, hactive, hslide, hns, AudioCmd.schedulesOn]
  · rcases st with ⟨o⟩
    rcases o with _ | t0 <;>
      simp +decide [scheduleStep, hactive, hslide, hns, AudioCmd.schedulesOn]
  · intro st2 next2 time2 params2 dur2
    simp [scheduleStep, hns]

/-- Claim C10, witness: a sliding step into an inactive step. -/
theorem slide_into_inactive_witness :
    stepSlide.active = true ∧ stepSlide.slide = true ∧ stepOff.active = false ∧
    (scheduleStep ⟨some 0⟩ stepSlide (some stepOff) 0 paramsNominal (1/8)).2.filter
        (fun c => c.schedulesOn AudioParam.oscFrequency) =
      [AudioCmd.setValueAtTime AudioParam.oscFrequency
         (noteFrequency (36 + stepSlide.note + stepSlide.octave * 12)) 0] :=
  ⟨rfl, rfl, rfl,
   (slide_into_inactive_no_ramp_gate_open ⟨some 0⟩ stepSlide stepOff 0 paramsNominal
     (1/8) rfl rfl rfl).1⟩

/-! ## Claim C8 -/

/-- Claim C8: every active trigger sets the pitch at trigger time to
`noteFrequency (36 + note + octave*12)` where `noteFrequency m =
440·2^((m−69)/12)`; a step with note = 0 and octave = 0 gives midi note
36 whose frequency is within 0.01 of 65.41 Hz; and at tempo 120 the
step duration computed by `scheduleNote` is exactly 0.125 s. -/
theorem pitch_formula_and_reference_values :
    (∀ (st : AudioEngineState) (step : Step) (nextStep : Option Step) (time : ℝ)
        (params : SynthParams) (stepDuration : ℝ), step.active = true →
      AudioCmd.setValueAtTime AudioParam.oscFrequency
        (noteFrequency (36 + step.note + step.octave * 12)) time ∈
        (scheduleStep st step nextStep time params stepDuration).2) ∧
    (36 + (0 : ℤ) + 0 * 12 = 36) ∧
    noteFrequency 36 = 440 * (2 : ℝ) ^ ((-11 : ℝ) / 4) ∧
    |noteFrequency 36 - 65.41| < 0.01 ∧
    (∀ (snap : Snapshot) (i : ℕ) (t : ℝ), snap.params.tempo = 120 →
      (scheduleNoteDecision snap i t).duration = 0.125) := by
  have hx : (0 : ℝ) < (2 : ℝ) ^ ((11 : ℝ) / 4) := Real.rpow_pos_of_pos (by norm_num) _
  have hx4 : ((2 : ℝ) ^ ((11 : ℝ) / 4)) ^ (4 : ℕ) = 2048 := by
    rw [← Real.rpow_natCast ((2 : ℝ) ^ ((11 : ℝ) / 4)) 4,
      ← Real.rpow_mul (by norm_num : (0 : ℝ) ≤ 2),
      show (11 : ℝ) / 4 * ((4 : ℕ) : ℝ) = ((11 : ℕ) : ℝ) by push_cast; ring,
      Real.rpow_natCast]
    norm_num
  have hlb : (6.7269 : ℝ) < (2 : ℝ) ^ ((11 : ℝ) / 4) := by
    by_contra hc
    push_neg at hc
    have h4 : ((2 : ℝ) ^ ((11 : ℝ) / 4)) ^ (4 : ℕ) ≤ (6.7269 : ℝ) ^ (4 : ℕ) :=
      pow_le_pow_left (le_of_lt hx) hc 4
    rw [hx4] at h4
    norm_num at h4
  have hub : (2 : ℝ) ^ ((11 : ℝ) / 4) < 6.7275 := by
    by_contra hc
    push_neg at hc
    have h4 : (6.7275 : ℝ) ^ (4 : ℕ) ≤ ((2 : ℝ) ^ ((11 : ℝ) / 4)) ^ (4 : ℕ) :=
      pow_le_pow_left (by norm_num) hc 4
    rw [hx4] at h4
    norm_num at h4
  have hfreq : noteFrequency 36 = 440 / (2 : ℝ) ^ ((11 : ℝ) / 4) := by
    unfold noteFrequency
    rw [show (((36 : ℤ) : ℝ) - 69) / 12 = -((11 : ℝ) / 4) by push_cast; norm_num,
      Real.rpow_neg (by norm_num : (0 : ℝ) ≤ 2)]
    ring
  refine ⟨?_, by norm_num, ?_, ?_, ?_⟩
  · intro st step nextStep time params stepDuration hactive
    rcases st with ⟨o⟩
    rcases o with _ | t0 <;>
    cases hsl : step.slide <;>
    rcases nextStep with _ | ns <;>
    try cases hns : ns.active
    all_goals simp [scheduleStep, hactive, hsl, *]
  · rw [hfreq, show ((-11 : ℝ) / 4) = -((11 : ℝ) / 4) by norm_num,
      Real.rpow_neg (by norm_num : (0 : ℝ) ≤ 2)]
    ring
  · rw [hfreq, abs_lt]
    constructor
    · have h1 : (440 : ℝ) / 6.7275 < 440 / (2 : ℝ) ^ ((11 : ℝ) / 4) :=
        div_lt_div_of_pos_left (by norm_num) hx hub
      have h2 : (65.40 : ℝ) < 440 / 6.7275 := by norm_num
      linarith
    · have h1 : (440 : ℝ) / (2 : ℝ) ^ ((11 : ℝ) / 4) < 440 / 6.7269 :=
        div_lt_div_of_pos_left (by norm_num) (by norm_num) hlb
      have h2 : (440 : ℝ) / 6.7269 < 65.42 := by norm_num
      linarith
  · intro snap i t ht
    norm_num [scheduleNoteDecision, ht]

/-- Claim C8, witness: the pitch command of a plain active trigger. -/
theorem pitch_formula_witness :
    stepPlain.active = true ∧
    AudioCmd.setValueAtTime AudioParam.oscFrequency
      (noteFrequency (36 + stepPlain.note + stepPlain.octave * 12)) 0 ∈
      (scheduleStep ⟨none⟩ stepPlain none 0 paramsNominal (1/8)).2 :=
  ⟨rfl,
   pitch_formula_and_reference_values.1 ⟨none⟩ stepPlain none 0 paramsNominal (1/8) rfl⟩

end MusicGem
